import Mathlib

/-!
# yt2pc: playlist-to-podcast server

A shallow embedding of `src/server.go` and `src/main.go`.

* Go strings are Lean `String`s; the router works on their character lists.
* The pure helpers (`filterVideos`, `generateRSSFeed`, the path dispatch of
  `handleRequest`) are Lean functions.
* The stateful parts (`playlistCache`, the audio directory on disk) are passed
  explicitly; the outside world (the YouTube API, `yt-dlp`, the regexp
  library, the clock) enters through parameters.
* A Go panic is an `Except.error` carrying a `Panic`.
-/

namespace Yt2pc

/-! ## Data model -/

/-- The fields of `youtube.PlaylistItem` the server reads:
`Snippet.Title`, `Snippet.Description` and `Snippet.ResourceId.VideoId`. -/
structure PlaylistItem where
  title : String
  description : String
  videoId : String
  deriving DecidableEq, Repr

/-- The anonymous `Enclosure` struct of `RSSItem`. -/
structure Enclosure where
  url : String
  length : String
  type : String
  deriving DecidableEq, Repr

/-- One `<item>` of the feed (`RSSItem`). -/
structure RSSItem where
  title : String
  description : String
  link : String
  guid : String
  enclosure : Enclosure
  deriving DecidableEq, Repr

/-- The `<channel>` element (`RSSChannel`). -/
structure RSSChannel where
  title : String
  description : String
  link : String
  items : List RSSItem
  deriving DecidableEq, Repr

/-- The document root (`RSSFeed`). -/
structure RSSFeed where
  version : String
  channel : RSSChannel
  deriving DecidableEq, Repr

/-- The `Server` struct: public base URL, API key and the raw filter pattern. -/
structure Server where
  apiUrl : String
  youtubeApiKey : String
  filterPattern : String
  deriving DecidableEq, Repr

/-- Run-time panics the embedded code can raise. -/
inductive Panic where
  | regexpMustCompile (pattern : String)
  | indexOutOfRange
  deriving DecidableEq, Repr

/-- The regexp library: `compile p` is `none` when `p` does not parse, and
otherwise the `MatchString` predicate of the compiled expression. -/
abbrev Regexp := String → Option (String → Bool)

/-! ## filterVideos -/

/-- The in-place reversal loop of `filterVideos`
(`for i, j := 0, len(filtered)-1; i < j; i, j = i+1, j-1`), with the slice as
a list. `fuel` bounds the number of iterations. -/
def reverseLoop {α : Type} : Nat → List α → Int → Int → Except Panic (List α)
  | 0, filtered, _, _ => .ok filtered
  | fuel + 1, filtered, i, j =>
    if i < j then
      match filtered[i.toNat]?, filtered[j.toNat]? with
      | some a, some b =>
        reverseLoop fuel ((filtered.set i.toNat b).set j.toNat a) (i + 1) (j - 1)
      | _, _ => .error .indexOutOfRange
    else .ok filtered

/-- The method `filterVideos`: pass-through on the empty pattern, otherwise
`regexp.MustCompile`, the filtering loop and the in-place reversal. -/
def filterVideos (compile : Regexp) (s : Server) (items : List PlaylistItem) :
    Except Panic (List PlaylistItem) :=
  if s.filterPattern = "" then .ok items
  else
    match compile s.filterPattern with
    | none => .error (.regexpMustCompile s.filterPattern)
    | some regex =>
      let filtered := items.foldl
        (fun filtered item => if regex item.title then filtered ++ [item] else filtered) []
      reverseLoop filtered.length filtered 0 ((filtered.length : Int) - 1)

/-! ## generateRSSFeed -/

/-- The `RSSItem` that `generateRSSFeed` builds for one playlist item. -/
def rssItemOf (s : Server) (slug : String) (item : PlaylistItem) : RSSItem :=
  let videoID := item.videoId
  { title := item.title
    description := item.description
    link := "https://www.youtube.com/watch?v=" ++ videoID
    guid := videoID
    enclosure :=
      { url := s.apiUrl ++ "/" ++ slug ++ "/" ++ videoID
        length := "0"
        type := "audio/mpeg" } }

/-- The method `generateRSSFeed`: the loop appends one `RSSItem` per item. -/
def generateRSSFeed (s : Server) (items : List PlaylistItem) (slug : String) : RSSFeed :=
  let rssItems := items.foldl (fun rssItems item => rssItems ++ [rssItemOf s slug item]) []
  { version := "2.0"
    channel :=
      { title := "YouTube Playlist " ++ slug
        description := "Generated podcast feed from YouTube playlist"
        link := s.apiUrl ++ "/" ++ slug ++ ".xml"
        items := rssItems } }

/-! ## handleRequest -/

/-- Where `handleRequest` sends a request. -/
inductive Route where
  /-- `s.healthCheck(w)`: status 200. -/
  | health
  /-- `s.serveRSSFeed(w, r, slug)`. -/
  | rssFeed (slug : String)
  /-- `serveAudio(w, r, videoID)`; the slug is only logged. -/
  | audio (slug videoID : String)
  /-- `http.NotFound(w, r)`: status 404. -/
  | notFound
  deriving DecidableEq, Repr

/-- The call `strings.Trim(s, "/")`: all leading and trailing slashes removed. -/
def trimSlash (s : List Char) : List Char :=
  (s.dropWhile (· == '/')).rdropWhile (· == '/')

/-- The call `strings.Split(s, "/")`: the pieces between slashes; never empty. -/
def splitSlash : List Char → List (List Char)
  | [] => [[]]
  | c :: cs =>
    if c = '/' then [] :: splitSlash cs
    else
      match splitSlash cs with
      | [] => [[c]]
      | p :: ps => (c :: p) :: ps

/-- The call `strings.HasSuffix(s, suffix)`. -/
def hasSuffix (s suffix : List Char) : Bool :=
  decide (s.drop (s.length - suffix.length) = suffix)

/-- The call `strings.TrimSuffix(s, suffix)`. -/
def trimSuffix (s suffix : List Char) : List Char :=
  if hasSuffix s suffix then s.take (s.length - suffix.length) else s

/-- The suffix `.xml` as characters. -/
def xmlSuffix : List Char := ['.', 'x', 'm', 'l']

/-- The dispatch of `handleRequest` on `r.URL.Path` (`len` is the byte length). -/
def handleRequest (path : String) : Route :=
  if path = "/health" then .health
  else if path.utf8ByteSize < 2 then .notFound
  else
    match splitSlash (trimSlash path.data) with
    | [part] =>
      if hasSuffix part xmlSuffix then .rssFeed (String.mk (trimSuffix part xmlSuffix))
      else .notFound
    | [slug, videoID] => .audio (String.mk slug) (String.mk videoID)
    | _ => .notFound

/-- The status code `handleRequest` itself decides: 200 for the liveness
handler and 404 for `http.NotFound`; the two content handlers set their own. -/
def Route.status : Route → Option Nat
  | .health => some 200
  | .notFound => some 404
  | _ => none

/-! ## The playlist cache and the metadata fetcher -/

/-- One page of `PlaylistItems.List`: the fields of the response that
`fetchPlaylistItems` reads. -/
structure PlaylistItemListResponse where
  items : List PlaylistItem
  nextPageToken : String
  deriving DecidableEq, Repr

/-- The YouTube client library as seen by the server: `newService apiKey` is
the outcome of `youtube.NewService`, and `listPage playlistID pageToken` the
outcome of `call.Do()` for that playlist and page token. -/
structure YouTube where
  newService : String → Except String Unit
  listPage : String → String → Except String PlaylistItemListResponse

/-- The `for` loop of `fetchPlaylistItems`; `none` when `fuel` page requests
were not enough to reach the last page. -/
def fetchLoop (listPage : String → Except String PlaylistItemListResponse) :
    Nat → List PlaylistItem → String → Option (Except String (List PlaylistItem))
  | 0, _, _ => none
  | fuel + 1, allItems, nextPageToken =>
    match listPage nextPageToken with
    | .error err => some (.error err)
    | .ok response =>
      if response.nextPageToken = "" then some (.ok (allItems ++ response.items))
      else fetchLoop listPage fuel (allItems ++ response.items) response.nextPageToken

/-- The function `fetchPlaylistItems`: starts with no items and the empty page token. -/
def fetchPlaylistItems (fuel : Nat) (yt : YouTube) (playlistID : String) :
    Option (Except String (List PlaylistItem)) :=
  fetchLoop (yt.listPage playlistID) fuel [] ""

/-- A `PlaylistCacheItem`; `fetchedAt` is a clock reading in nanoseconds. -/
structure PlaylistCacheItem where
  playlistItems : List PlaylistItem
  fetchedAt : Int
  deriving DecidableEq, Repr

/-- The global map `playlistCache`. -/
abbrev PlaylistCache := String → Option PlaylistCacheItem

/-- Calls made to the upstream side, in order. -/
inductive UpstreamCall where
  | newService (apiKey : String)
  | fetchPlaylistItems (playlistID : String)
  deriving DecidableEq, Repr

/-- What one run of `getPlaylistItemsCached` leaves behind. -/
structure CachedFetch where
  result : Except String (List PlaylistItem)
  cache : PlaylistCache
  calls : List UpstreamCall

/-- The second half of `getPlaylistItemsCached`, reached when the entry is
absent or stale: construct the client, fetch all pages, store the result. -/
def refreshPlaylist (fuel : Nat) (yt : YouTube) (cache : PlaylistCache) (storeTime : Int)
    (slug apiKey : String) : Option CachedFetch :=
  match yt.newService apiKey with
  | .error err => some { result := .error err, cache := cache, calls := [.newService apiKey] }
  | .ok _ =>
    match fetchPlaylistItems fuel yt slug with
    | none => none
    | some (.error err) =>
      some { result := .error err, cache := cache
             calls := [.newService apiKey, .fetchPlaylistItems slug] }
    | some (.ok playlistItems) =>
      some { result := .ok playlistItems
             cache := Function.update cache slug
               (some { playlistItems := playlistItems, fetchedAt := storeTime })
             calls := [.newService apiKey, .fetchPlaylistItems slug] }

/-- The method `getPlaylistItemsCached`. `now` is the clock when the entry is
checked (`time.Since`), `storeTime` the clock when the new entry is stored
(`time.Now()`), `cacheExpiry` the global of that name. `none` when the page
loop ran out of `fuel`. -/
def getPlaylistItemsCached (fuel : Nat) (yt : YouTube) (cacheExpiry : Int)
    (cache : PlaylistCache) (now storeTime : Int) (slug apiKey : String) :
    Option CachedFetch :=
  match cache slug with
  | some cacheItem =>
    if now - cacheItem.fetchedAt < cacheExpiry then
      some { result := .ok cacheItem.playlistItems, cache := cache, calls := [] }
    else refreshPlaylist fuel yt cache storeTime slug apiKey
  | none => refreshPlaylist fuel yt cache storeTime slug apiKey

/-! ## serveRSSFeed -/

/-- What `serveRSSFeed` writes to the client. -/
inductive FeedResponse where
  /-- Status 200, `Content-Type: application/rss+xml`, the marshalled feed. -/
  | feed (doc : RSSFeed)
  /-- The call `http.Error(w, msg, 500)`. -/
  | serverError (msg : String)
  /-- The handler panicked. -/
  | panicked (p : Panic)
  deriving DecidableEq, Repr

/-- The method `serveRSSFeed` together with the cache it leaves. Marshalling
the `RSSFeed` value (strings only) does not fail and is left symbolic. -/
def serveRSSFeed (compile : Regexp) (fuel : Nat) (yt : YouTube) (cacheExpiry : Int)
    (s : Server) (cache : PlaylistCache) (now storeTime : Int) (slug : String) :
    Option (FeedResponse × PlaylistCache) :=
  match getPlaylistItemsCached fuel yt cacheExpiry cache now storeTime slug s.youtubeApiKey with
  | none => none
  | some r =>
    match r.result with
    | .error _ => some (.serverError "Error fetching playlist items", r.cache)
    | .ok playlistItems =>
      match filterVideos compile s playlistItems with
      | .error p => some (.panicked p, r.cache)
      | .ok filteredItems => some (.feed (generateRSSFeed s filteredItems slug), r.cache)

/-! ## serveAudio -/

/-- File contents, as bytes. -/
abbrev Content := List Nat

/-- The files on disk: the content found at a path, if a file is there. -/
abbrev FileSystem := String → Option Content

/-- The constant `audioDir`. -/
def audioDir : String := "./audio_cache"

/-- What one run of the `yt-dlp` command does: the file it leaves at the
output path (`none`: it wrote none) and the error of `cmd.CombinedOutput`. -/
structure Extraction where
  written : Option Content
  err : Option String
  deriving DecidableEq, Repr

/-- The function `downloadAudio`: runs the command, which writes to `outputPath`. -/
def downloadAudio (run : Extraction) (fs : FileSystem) (outputPath : String) :
    FileSystem × Option String :=
  let fs1 := match run.written with
    | some bytes => Function.update fs outputPath (some bytes)
    | none => fs
  (fs1, run.err)

/-- What `serveAudio` writes to the client. -/
inductive AudioResponse where
  /-- The call `http.ServeContent` on the opened file with these bytes. -/
  | content (bytes : Content)
  /-- The call `http.Error(w, msg, 500)`. -/
  | serverError (msg : String)
  deriving DecidableEq, Repr

/-- What one run of `serveAudio` leaves behind; `extracted` records whether
`downloadAudio` was called. -/
structure AudioServed where
  response : AudioResponse
  fs : FileSystem
  extracted : Bool

/-- The second half of `serveAudio`: `os.Open` on the path, then
`http.ServeContent` on the opened file. `os.Open` fails exactly when no file is
at the path. -/
def openAndServe (fs : FileSystem) (audioFilePath : String) (extracted : Bool) : AudioServed :=
  match fs audioFilePath with
  | none =>
    { response := .serverError "Error opening audio file", fs := fs, extracted := extracted }
  | some bytes => { response := .content bytes, fs := fs, extracted := extracted }

/-- The function `serveAudio`. `join` is `filepath.Join`; `run` is what the
extraction command does if this request starts it. `os.Stat` reports
not-exist exactly when no file is at the path. -/
def serveAudio (join : String → String → String) (run : Extraction) (fs : FileSystem)
    (videoID : String) : AudioServed :=
  let audioFilePath := join audioDir (videoID ++ ".mp3")
  match fs audioFilePath with
  | none =>
    match downloadAudio run fs audioFilePath with
    | (fs1, some _) =>
      { response := .serverError "Error downloading audio", fs := fs1, extracted := true }
    | (fs1, none) => openAndServe fs1 audioFilePath true
  | some _ => openAndServe fs audioFilePath false

/-- A sequence of audio requests served one after another, each with its
identifier and what the extraction command would do for it; the file system
after the last one. -/
def serveAudioAll (join : String → String → String) :
    FileSystem → List (String × Extraction) → FileSystem
  | fs, [] => fs
  | fs, (videoID, run) :: rest => serveAudioAll join (serveAudio join run fs videoID).fs rest

/-! ## main -/

/-- The process environment after `godotenv.Load`: `os.LookupEnv`. -/
abbrev Env := String → Option String

/-- The call `os.Getenv`: the empty string for an unset variable. -/
def getenv (env : Env) (key : String) : String := (env key).getD ""

/-- The helper `getEnvAsInt`; `atoi` is `strconv.Atoi`. -/
def getEnvAsInt (atoi : String → Option Int) (env : Env) (key : String) (defaultVal : Int) : Int :=
  match env key with
  | some value =>
    match atoi value with
    | some intValue => intValue
    | none => defaultVal
  | none => defaultVal

/-- The constant `cacheTTL`. -/
def cacheTTL : Int := 3600

/-- Two's-complement wrap of an integer to 64 bits (`time.Duration` is `int64`). -/
def wrap64 (n : Int) : Int := (n + 2 ^ 63) % 2 ^ 64 - 2 ^ 63

/-- How `main` ends up: a `log.Fatalf` or `log.Fatal` that ends the process
before any request is served, or the listener accepting requests with the
configuration `main` built. `convertToMp3` is the value `main` computes for
the field of that name in its `Server` literal; the `Server` struct of
`server.go` declares no such field and nothing reads it, so it is kept beside
the server. -/
inductive Startup where
  | fatal (msg : String)
  | serving (server : Server) (convertToMp3 : Bool) (port : Int) (cacheExpiry : Int)
  deriving DecidableEq, Repr

/-- The function `main`. `dirExists` is whether `audioDir` is there at
startup, `mkdirErr` the error `os.Mkdir` would give, and `listen addr` the
outcome of `http.ListenAndServe(addr, nil)`: `some err` when the listener
cannot be started, which `log.Fatal` turns into the end of the process, and
`none` when it is accepting requests. -/
def main (atoi : String → Option Int) (env : Env) (dirExists : Bool)
    (mkdirErr : Option String) (listen : String → Option String) : Startup :=
  let port := getEnvAsInt atoi env "PORT" 8080
  let cacheTTLSeconds := getEnvAsInt atoi env "CACHE_TTL" cacheTTL
  let cacheExpiry := wrap64 (cacheTTLSeconds * 1000000000)
  if !dirExists && mkdirErr.isSome then .fatal "Error creating audio cache directory"
  else
    let serverUrl :=
      if getenv env "SERVER_URL" = "" then "http://localhost:" ++ toString port
      else getenv env "SERVER_URL"
    let apiKey := getenv env "YOUTUBE_API_KEY"
    if apiKey = "" then .fatal "YouTube API key not set"
    else
      let server : Server :=
        { apiUrl := serverUrl, youtubeApiKey := apiKey
          filterPattern := getenv env "FILTER_PATTERN" }
      let convertToMp3 := decide (getenv env "CONVERT_TO_MP3" = "true")
      let serverPort := ":" ++ toString port
      match listen serverPort with
      | some err => .fatal err
      | none => .serving server convertToMp3 port cacheExpiry

/-! ## Example data -/

/-- A fragment of the regexp library, enough for the examples: a pattern of
letters and digits matches the titles that contain it, `^` followed by such a
literal matches the titles that start with it, and `(` does not parse
(missing closing parenthesis). Other patterns are outside the fragment and are
given no matcher. -/
def exampleRegexp : Regexp := fun pattern =>
  match pattern.data with
  | ['('] => none
  | '^' :: lit =>
    if lit.all Char.isAlphanum then some (fun title => lit.isPrefixOf title.data) else none
  | lit =>
    if lit.all Char.isAlphanum then some (fun title => decide (lit <:+: title.data)) else none

/-- An item with the given title and identifier and an empty description. -/
def mkItem (title videoId : String) : PlaylistItem :=
  { title := title, description := "", videoId := videoId }

/-- A server with the given base URL and filter pattern. -/
def mkServer (apiUrl filterPattern : String) : Server :=
  { apiUrl := apiUrl, youtubeApiKey := "key", filterPattern := filterPattern }

/-- A page chain of the upstream: starting at page token `token`, the pages
`pages` are served one after another, each naming the next, and the token
after them is `next`. -/
def pageChain (listPage : String → Except String PlaylistItemListResponse) :
    String → List PlaylistItemListResponse → String → Prop
  | token, [], next => token = next
  | token, page :: pages, next =>
    listPage token = .ok page ∧ page.nextPageToken ≠ "" ∧
      pageChain listPage page.nextPageToken pages next

/-- The `n`-th item of the example playlist. -/
def exampleItem (n : Nat) : PlaylistItem :=
  mkItem "Episode" (String.mk (List.replicate n 'x'))

/-- An upstream serving the example playlist in three pages of 50, 50 and 12
items, under the page tokens (empty), `p2` and `p3`. -/
def threePages : YouTube :=
  { newService := fun _ => .ok ()
    listPage := fun _ pageToken =>
      if pageToken = "" then
        .ok { items := (List.range' 0 50).map exampleItem, nextPageToken := "p2" }
      else if pageToken = "p2" then
        .ok { items := (List.range' 50 50).map exampleItem, nextPageToken := "p3" }
      else if pageToken = "p3" then
        .ok { items := (List.range' 100 12).map exampleItem, nextPageToken := "" }
      else .error "invalid page token" }

/-- A `filepath.Join` for the examples: directory, slash, file name. -/
def exampleJoin (dir file : String) : String := dir ++ "/" ++ file

/-- An empty disk. -/
def emptyDisk : FileSystem := fun _ => none

/-- A listener that rejects ports above 65535, as the network stack does. -/
def listenValidPort : String → Option String := fun addr =>
  match addr.data with
  | ':' :: digits =>
    if digits ≠ [] ∧ digits.all Char.isDigit = true ∧
        digits.foldl (fun n c => 10 * n + (c.toNat - 48)) 0 ≤ 65535 then none
    else some "listen tcp: address: invalid port"
  | _ => some "listen tcp: address: missing port in address"

/-- An environment that sets the API key and the filter pattern `(`. -/
def badPatternEnv : Env := fun key =>
  if key = "YOUTUBE_API_KEY" then some "key"
  else if key = "FILTER_PATTERN" then some "("
  else none

/-! ## Lemmas: the reversal loop -/

theorem set_mid {α : Type} (mid post : List α) (x y : α) :
    (mid ++ y :: post).set mid.length x = mid ++ x :: post := by
  induction mid with
  | nil => rfl
  | cons m ms ih => simp only [List.cons_append, List.length_cons, List.set_cons_succ, ih]

theorem swap_ends {α : Type} (pre mid post : List α) (x y : α) :
    ((pre ++ x :: (mid ++ y :: post)).set pre.length y).set
        (pre.length + 1 + mid.length) x
      = pre ++ y :: (mid ++ x :: post) := by
  induction pre with
  | nil =>
    simp only [List.nil_append, List.length_nil, List.set_cons_zero, Nat.zero_add]
    rw [Nat.add_comm, List.set_cons_succ, set_mid]
  | cons p ps ih =>
    simp only [List.cons_append, List.length_cons, List.set_cons_succ]
    rw [show ps.length + 1 + 1 + mid.length = (ps.length + 1 + mid.length) + 1 by omega,
      List.set_cons_succ, ih]

theorem get_first {α : Type} (pre rest : List α) (x : α) :
    (pre ++ x :: rest)[pre.length]? = some x := by
  induction pre with
  | nil => simp
  | cons p ps ih => simpa using ih

theorem get_second {α : Type} (pre mid post : List α) (x y : α) :
    (pre ++ x :: (mid ++ y :: post))[pre.length + 1 + mid.length]? = some y := by
  have h := get_first (pre ++ x :: mid) post y
  have e : pre ++ x :: mid ++ y :: post = pre ++ x :: (mid ++ y :: post) := by simp
  have l : (pre ++ x :: mid).length = pre.length + 1 + mid.length := by
    simp only [List.length_append, List.length_cons]; omega
  rw [e, l] at h
  exact h

theorem reverseLoop_step {α : Type} (fuel : Nat) (pre mid post : List α) (x y : α) :
    reverseLoop (fuel + 1) (pre ++ x :: (mid ++ y :: post)) (pre.length : Int)
        ((pre.length : Int) + 1 + (mid.length : Int))
      = reverseLoop fuel (pre ++ y :: (mid ++ x :: post)) ((pre.length : Int) + 1)
          ((pre.length : Int) + (mid.length : Int)) := by
  have hi : ((pre.length : Int)).toNat = pre.length := Int.toNat_natCast _
  have hj : ((pre.length : Int) + 1 + (mid.length : Int)).toNat
      = pre.length + 1 + mid.length := by omega
  have hlt : (pre.length : Int) < (pre.length : Int) + 1 + (mid.length : Int) := by omega
  have hj1 : (pre.length : Int) + 1 + (mid.length : Int) - 1
      = (pre.length : Int) + (mid.length : Int) := by omega
  rw [reverseLoop, if_pos hlt, hi, hj, get_first, get_second]
  simp only []
  rw [swap_ends, hj1]

theorem reverseLoop_spec {α : Type} :
    ∀ (fuel : Nat) (pre mid post : List α), mid.length ≤ 2 * fuel + 1 →
      reverseLoop fuel (pre ++ mid ++ post) (pre.length : Int)
          ((pre.length : Int) + (mid.length : Int) - 1)
        = .ok (pre ++ mid.reverse ++ post) := by
  intro fuel
  induction fuel with
  | zero =>
    intro pre mid post h
    match mid, h with
    | [], _ => simp [reverseLoop]
    | [x], _ => simp [reverseLoop]
    | _ :: _ :: _, h => simp at h
  | succ n ih =>
    intro pre mid post h
    match mid, h with
    | [], _ => simp [reverseLoop]
    | [x], _ => simp [reverseLoop]
    | x :: z :: rest, h =>
      obtain ⟨mid', y, hy⟩ : ∃ mid' y, z :: rest = mid' ++ [y] := by
        rcases List.eq_nil_or_concat (z :: rest) with h0 | ⟨l, b, hb⟩
        · simp at h0
        · exact ⟨l, b, by simpa using hb⟩
      have hlen : mid'.length = rest.length := by
        have := congrArg List.length hy
        simp at this
        omega
      have hm : mid'.length ≤ 2 * n + 1 := by
        simp only [List.length_cons] at h
        omega
      have hstep := reverseLoop_step n pre mid' post x y
      have hrec := ih (pre ++ [y]) mid' (x :: post) hm
      have e1 : pre ++ x :: z :: rest ++ post = pre ++ x :: (mid' ++ y :: post) := by
        rw [hy]; simp
      have e2 : pre ++ [y] ++ mid' ++ x :: post = pre ++ y :: (mid' ++ x :: post) := by simp
      have e3 : pre ++ (x :: z :: rest).reverse ++ post
          = pre ++ [y] ++ mid'.reverse ++ x :: post := by
        rw [hy]; simp
      have l1 : ((pre ++ [y]).length : Int) = (pre.length : Int) + 1 := by simp
      have l2 : (pre.length : Int) + ((x :: z :: rest).length : Int) - 1
          = (pre.length : Int) + 1 + (mid'.length : Int) := by
        simp only [List.length_cons, Nat.cast_add, Nat.cast_one]; omega
      rw [e2, l1, show (pre.length : Int) + 1 + (mid'.length : Int) - 1
            = (pre.length : Int) + (mid'.length : Int) by omega] at hrec
      rw [e1, l2, hstep, hrec, e3]

theorem foldl_append_filter {α : Type} (p : α → Bool) (items : List α) :
    ∀ acc : List α,
      items.foldl (fun filtered item => if p item then filtered ++ [item] else filtered) acc
        = acc ++ items.filter p := by
  induction items with
  | nil => intro acc; simp
  | cons x xs ih =>
    intro acc
    rw [List.foldl_cons, ih]
    cases hx : p x <;> simp [List.filter_cons, hx]

theorem foldl_append_map {α β : Type} (f : α → β) (items : List α) :
    ∀ acc : List β,
      items.foldl (fun out item => out ++ [f item]) acc = acc ++ items.map f := by
  induction items with
  | nil => intro acc; simp
  | cons x xs ih =>
    intro acc
    rw [List.foldl_cons, ih]
    simp

theorem generateRSSFeed_items (s : Server) (items : List PlaylistItem) (slug : String) :
    (generateRSSFeed s items slug).channel.items = items.map (rssItemOf s slug) := by
  unfold generateRSSFeed
  simp only [foldl_append_map, List.nil_append]

theorem reverseLoop_eq_reverse {α : Type} (l : List α) :
    reverseLoop l.length l 0 ((l.length : Int) - 1) = .ok l.reverse := by
  have h := reverseLoop_spec l.length [] l [] (by omega)
  simpa using h

/-! ## Lemmas: the router -/

theorem splitSlash_ne_nil (l : List Char) : splitSlash l ≠ [] := by
  cases l with
  | nil => simp [splitSlash]
  | cons c cs =>
    unfold splitSlash
    split
    · simp
    · split <;> simp

theorem splitSlash_no_slash (l : List Char) (h : '/' ∉ l) : splitSlash l = [l] := by
  induction l with
  | nil => rfl
  | cons c cs ih =>
    have hc : c ≠ '/' := fun e => h (by simp [e])
    have hcs : '/' ∉ cs := fun m => h (List.mem_cons_of_mem _ m)
    unfold splitSlash
    rw [if_neg hc, ih hcs]

theorem splitSlash_append_slash (k rest : List Char) (h : '/' ∉ k) :
    splitSlash (k ++ '/' :: rest) = k :: splitSlash rest := by
  induction k with
  | nil => simp [splitSlash]
  | cons c cs ih =>
    have hc : c ≠ '/' := fun e => h (by simp [e])
    have hcs : '/' ∉ cs := fun m => h (List.mem_cons_of_mem _ m)
    rw [List.cons_append, splitSlash, if_neg hc, ih hcs]

/-- The pieces of `splitSlash` contain no slash and, joined by slashes, give
the input back: one piece is the whole slash-free input, two pieces are the
two sides of its only slash. -/
theorem splitSlash_one (l part : List Char) (h : splitSlash l = [part]) :
    l = part ∧ '/' ∉ l := by
  induction l generalizing part with
  | nil => simp [splitSlash] at h; simp [h]
  | cons c cs ih =>
    unfold splitSlash at h
    split at h
    · exact absurd (List.cons.inj h).2 (splitSlash_ne_nil cs)
    · rename_i hc
      split at h
      · rename_i e; exact absurd e (splitSlash_ne_nil cs)
      · rename_i p ps e
        obtain ⟨h1, h2⟩ := List.cons.inj h
        subst h2
        obtain ⟨e1, e2⟩ := ih p e
        subst h1
        refine ⟨by rw [e1], ?_⟩
        intro m
        rcases List.mem_cons.mp m with m | m
        · exact hc m.symm
        · exact e2 m

theorem splitSlash_two (l a b : List Char) (h : splitSlash l = [a, b]) :
    l = a ++ '/' :: b ∧ '/' ∉ a ∧ '/' ∉ b := by
  induction l generalizing a with
  | nil => simp [splitSlash] at h
  | cons c cs ih =>
    unfold splitSlash at h
    split at h
    · rename_i hc
      obtain ⟨h1, h2⟩ := List.cons.inj h
      obtain ⟨e1, e2⟩ := splitSlash_one cs b h2
      subst h1
      subst hc
      exact ⟨by simp [e1], by simp, e1 ▸ e2⟩
    · rename_i hc
      split at h
      · rename_i e; exact absurd e (splitSlash_ne_nil cs)
      · rename_i p ps e
        obtain ⟨h1, h2⟩ := List.cons.inj h
        subst h2
        obtain ⟨e1, e2, e3⟩ := ih p e
        subst h1
        refine ⟨by rw [e1]; rfl, ?_, e3⟩
        intro m
        rcases List.mem_cons.mp m with m | m
        · exact hc m.symm
        · exact e2 m

theorem trimSlash_of_clean (t : List Char) (hh : t.head? ≠ some '/')
    (hl : t.getLast? ≠ some '/') : trimSlash t = t := by
  unfold trimSlash
  have h1 : t.dropWhile (· == '/') = t := by
    cases t with
    | nil => rfl
    | cons c cs =>
      have hc : (c == '/') = false := by
        cases hb : c == '/' with
        | false => rfl
        | true => exact absurd (by simp [eq_of_beq hb]) hh
      rw [List.dropWhile_cons_of_neg (by simp [hc])]
  rw [h1, List.rdropWhile_eq_self_iff]
  intro hne
  have : t.getLast? = some (t.getLast hne) := List.getLast?_eq_getLast _ hne
  intro hp
  apply hl
  rw [this]
  simpa using hp

theorem trimSlash_leading (t : List Char) (hh : t.head? ≠ some '/')
    (hl : t.getLast? ≠ some '/') : trimSlash ('/' :: t) = t := by
  have : trimSlash ('/' :: t) = trimSlash t := by
    simp [trimSlash, List.dropWhile]
  rw [this, trimSlash_of_clean t hh hl]

theorem trimSlash_head (s : List Char) : (trimSlash s).head? ≠ some '/' := by
  intro h
  unfold trimSlash at h
  have hp : (s.dropWhile (· == '/')).rdropWhile (· == '/') <+: s.dropWhile (· == '/') :=
    List.rdropWhile_prefix _ _
  obtain ⟨r, hr⟩ := hp
  cases hq : (s.dropWhile (· == '/')).rdropWhile (· == '/') with
  | nil => rw [hq] at h; simp at h
  | cons c cs =>
    rw [hq] at h hr
    simp only [List.head?_cons, Option.some.injEq] at h
    subst h
    have := List.head?_dropWhile_not (· == '/') s
    rw [← hr] at this
    simp at this

theorem trimSlash_last (s : List Char) : (trimSlash s).getLast? ≠ some '/' := by
  intro h
  have hne : trimSlash s ≠ [] := by
    intro e; rw [e] at h; simp at h
  have := List.rdropWhile_last_not (· == '/') (s.dropWhile (· == '/')) hne
  rw [List.getLast?_eq_getLast _ hne] at h
  simp only [Option.some.injEq] at h
  apply this
  show (List.getLast (trimSlash s) hne == '/') = true
  rw [h]; rfl

theorem hasSuffix_append (k suffix : List Char) : hasSuffix (k ++ suffix) suffix = true := by
  simp [hasSuffix]

theorem trimSuffix_append (k suffix : List Char) : trimSuffix (k ++ suffix) suffix = k := by
  simp [trimSuffix, hasSuffix_append]

theorem hasSuffix_split (s suffix : List Char) (h : hasSuffix s suffix = true) :
    s = s.take (s.length - suffix.length) ++ suffix := by
  unfold hasSuffix at h
  have h1 : s.drop (s.length - suffix.length) = suffix := of_decide_eq_true h
  conv_lhs => rw [← List.take_append_drop (s.length - suffix.length) s]
  rw [h1]

theorem two_le_utf8ByteSize (s : String) (h : 2 ≤ s.data.length) : ¬ s.utf8ByteSize < 2 := by
  obtain ⟨cs⟩ := s
  match cs, h with
  | a :: b :: rest, _ =>
    have ha := Char.utf8Size_pos a
    have hb := Char.utf8Size_pos b
    simp only [String.utf8ByteSize_mk, String.utf8Len_cons]
    omega

theorem head_append_no_slash (k rest : List Char) (hk : k ≠ []) (hks : '/' ∉ k) :
    (k ++ rest).head? ≠ some '/' := by
  cases k with
  | nil => exact absurd rfl hk
  | cons c cs =>
    intro h
    apply hks
    simp only [List.cons_append, List.head?_cons, Option.some.injEq] at h
    simp [h]

theorem last_append_no_slash (pre i : List Char) (hi : i ≠ []) (his : '/' ∉ i) :
    (pre ++ i).getLast? ≠ some '/' := by
  intro h
  rw [List.getLast?_append_of_ne_nil _ hi, List.getLast?_eq_getLast _ hi] at h
  simp only [Option.some.injEq] at h
  exact his (h ▸ List.getLast_mem hi)

theorem data_ne_nil (k : String) (hk : k ≠ "") : k.data ≠ [] := by
  intro h
  apply hk
  exact String.ext h

theorem handleRequest_feed_path (k : String) (hk : k ≠ "") (hks : '/' ∉ k.data) :
    handleRequest ("/" ++ k ++ ".xml") = .rssFeed k := by
  have hd : ("/" ++ k ++ ".xml").data = '/' :: (k.data ++ xmlSuffix) := by
    simp [String.data_append, xmlSuffix]
  have hx : '/' ∉ xmlSuffix := by decide
  have hne : ("/" ++ k ++ ".xml") ≠ "/health" := by
    intro e
    have e1 := congrArg String.data e
    rw [hd] at e1
    have e2 := congrArg List.getLast? e1
    rw [show '/' :: (k.data ++ xmlSuffix) = ('/' :: k.data) ++ xmlSuffix from rfl,
      List.getLast?_append_of_ne_nil _ (by decide)] at e2
    revert e2
    decide
  have hsz : ¬ ("/" ++ k ++ ".xml").utf8ByteSize < 2 := by
    apply two_le_utf8ByteSize
    rw [hd]
    simp [xmlSuffix]
  have htrim : trimSlash ('/' :: (k.data ++ xmlSuffix)) = k.data ++ xmlSuffix :=
    trimSlash_leading _ (head_append_no_slash _ _ (data_ne_nil k hk) hks)
      (last_append_no_slash _ _ (by decide) hx)
  have hsplit : splitSlash (k.data ++ xmlSuffix) = [k.data ++ xmlSuffix] :=
    splitSlash_no_slash _ (by
      intro m
      rcases List.mem_append.mp m with m | m
      · exact hks m
      · exact hx m)
  unfold handleRequest
  rw [if_neg hne, if_neg hsz, hd, htrim, hsplit]
  simp only [hasSuffix_append, trimSuffix_append, if_true]

theorem handleRequest_audio_path (k i : String) (hk : k ≠ "") (hks : '/' ∉ k.data)
    (hi : i ≠ "") (his : '/' ∉ i.data) :
    handleRequest ("/" ++ k ++ "/" ++ i) = .audio k i := by
  have hd : ("/" ++ k ++ "/" ++ i).data = '/' :: (k.data ++ '/' :: i.data) := by
    simp [String.data_append]
  have hne : ("/" ++ k ++ "/" ++ i) ≠ "/health" := by
    intro e
    have e1 := congrArg String.data e
    rw [hd] at e1
    have hm : '/' ∈ k.data ++ '/' :: i.data := by simp
    have e2 : k.data ++ '/' :: i.data = ['h', 'e', 'a', 'l', 't', 'h'] :=
      (List.cons.inj e1).2
    rw [e2] at hm
    revert hm
    decide
  have hsz : ¬ ("/" ++ k ++ "/" ++ i).utf8ByteSize < 2 := by
    apply two_le_utf8ByteSize
    rw [hd]
    have := List.length_pos.mpr (data_ne_nil k hk)
    simp only [List.length_cons, List.length_append]
    omega
  have htrim : trimSlash ('/' :: (k.data ++ '/' :: i.data)) = k.data ++ '/' :: i.data := by
    apply trimSlash_leading _ (head_append_no_slash _ _ (data_ne_nil k hk) hks)
    rw [show k.data ++ '/' :: i.data = (k.data ++ ['/']) ++ i.data by simp]
    exact last_append_no_slash _ _ (data_ne_nil i hi) his
  have hsplit : splitSlash (k.data ++ '/' :: i.data) = [k.data, i.data] := by
    rw [splitSlash_append_slash _ _ hks, splitSlash_no_slash _ his]
  unfold handleRequest
  rw [if_neg hne, if_neg hsz, hd, htrim, hsplit]

theorem route_notFound_of_shape (path : String) (hne : path ≠ "/health")
    (hfeed : ∀ k : List Char, '/' ∉ k → trimSlash path.data ≠ k ++ xmlSuffix)
    (haudio : ∀ k i : List Char, k ≠ [] → i ≠ [] → '/' ∉ k → '/' ∉ i →
      trimSlash path.data ≠ k ++ '/' :: i) :
    handleRequest path = .notFound := by
  unfold handleRequest
  rw [if_neg hne]
  split
  · rfl
  · split
    · rename_i part hp
      obtain ⟨e1, e2⟩ := splitSlash_one _ _ hp
      split
      · rename_i hs
        exfalso
        have hsplit := hasSuffix_split part xmlSuffix hs
        apply hfeed (part.take (part.length - xmlSuffix.length))
        · intro m
          exact e2 (e1 ▸ List.mem_of_mem_take m)
        · rw [e1]; exact hsplit
      · rfl
    · rename_i a b hp
      exfalso
      obtain ⟨e1, e2, e3⟩ := splitSlash_two _ _ _ hp
      have hh := trimSlash_head path.data
      have hl := trimSlash_last path.data
      rw [e1] at hh hl
      apply haudio a b
      · intro ha; subst ha; exact hh rfl
      · intro hb; subst hb
        apply hl
        simp
      · exact e2
      · exact e3
      · exact e1
    · rfl

/-! ## Lemmas: pagination -/

theorem fetchLoop_chain (listPage : String → Except String PlaylistItemListResponse) :
    ∀ (pages : List PlaylistItemListResponse) (token next : String)
      (acc : List PlaylistItem) (fuel : Nat), pageChain listPage token pages next →
      fetchLoop listPage (pages.length + fuel) acc token
        = fetchLoop listPage fuel (acc ++ pages.flatMap (fun page => page.items)) next := by
  intro pages
  induction pages with
  | nil =>
    intro token next acc fuel h
    simp only [pageChain] at h
    subst h
    simp
  | cons page pages ih =>
    intro token next acc fuel h
    obtain ⟨h1, h2, h3⟩ := h
    rw [show (page :: pages).length + fuel = (pages.length + fuel) + 1 by
      simp only [List.length_cons]; omega]
    rw [fetchLoop]
    simp only [h1, if_neg h2]
    rw [ih _ _ _ _ h3]
    simp [List.flatMap_cons, List.append_assoc]

/-! ## Lemmas: the audio cache -/

theorem serveAudio_hit (join : String → String → String) (run : Extraction)
    (fs : FileSystem) (videoID : String) (bytes : Content)
    (h : fs (join audioDir (videoID ++ ".mp3")) = some bytes) :
    serveAudio join run fs videoID
      = { response := .content bytes, fs := fs, extracted := false } := by
  unfold serveAudio
  simp only [h, openAndServe]

theorem serveAudio_content_present (join : String → String → String) (run : Extraction)
    (fs : FileSystem) (videoID : String) (bytes : Content)
    (h : (serveAudio join run fs videoID).response = .content bytes) :
    (serveAudio join run fs videoID).fs (join audioDir (videoID ++ ".mp3")) = some bytes := by
  unfold serveAudio at h ⊢
  cases hfs : fs (join audioDir (videoID ++ ".mp3")) with
  | some b =>
    simp only [hfs, openAndServe] at h ⊢
    simpa using h
  | none =>
    simp only [hfs] at h ⊢
    cases he : run.err with
    | some e => simp [downloadAudio, he] at h
    | none =>
      simp only [downloadAudio, he] at h ⊢
      unfold openAndServe at h ⊢
      split at h
      · simp at h
      · rename_i b hb
        simp only [hb]
        simpa using h

theorem serveAudio_frame (join : String → String → String) (run : Extraction)
    (fs : FileSystem) (videoID path : String)
    (h : path ≠ join audioDir (videoID ++ ".mp3")) :
    (serveAudio join run fs videoID).fs path = fs path := by
  have hup : ∀ v, Function.update fs (join audioDir (videoID ++ ".mp3")) v path = fs path :=
    fun v => Function.update_noteq h v fs
  unfold serveAudio
  cases hfs : fs (join audioDir (videoID ++ ".mp3")) with
  | some b => simp only [openAndServe, hfs]
  | none =>
    simp only [downloadAudio]
    cases hw : run.written <;> cases he : run.err <;> simp only [openAndServe] <;>
      split <;> simp [hup, hfs]

theorem serveAudio_local (join : String → String → String) (run : Extraction)
    (fs fs1 : FileSystem) (videoID : String)
    (h : fs1 (join audioDir (videoID ++ ".mp3")) = fs (join audioDir (videoID ++ ".mp3"))) :
    (serveAudio join run fs1 videoID).response = (serveAudio join run fs videoID).response ∧
    (serveAudio join run fs1 videoID).extracted
      = (serveAudio join run fs videoID).extracted := by
  unfold serveAudio
  simp only [h]
  cases hfs : fs (join audioDir (videoID ++ ".mp3")) with
  | some b => simp [openAndServe, h, hfs]
  | none =>
    simp only [downloadAudio]
    cases hw : run.written <;> cases he : run.err <;> simp [openAndServe, h, hfs]

theorem serveAudio_keeps (join : String → String → String) (run : Extraction)
    (fs : FileSystem) (videoID path : String) (bytes : Content) (h : fs path = some bytes) :
    (serveAudio join run fs videoID).fs path = some bytes := by
  by_cases hp : path = join audioDir (videoID ++ ".mp3")
  · rw [serveAudio_hit join run fs videoID bytes (hp ▸ h)]
    exact h
  · rw [serveAudio_frame join run fs videoID path hp]
    exact h

theorem serveAudioAll_keeps (join : String → String → String) (path : String)
    (bytes : Content) :
    ∀ (later : List (String × Extraction)) (fs : FileSystem), fs path = some bytes →
      serveAudioAll join fs later path = some bytes := by
  intro later
  induction later with
  | nil => intro fs h; exact h
  | cons req rest ih =>
    intro fs h
    obtain ⟨videoID, run⟩ := req
    exact ih _ (serveAudio_keeps join run fs videoID path bytes h)

/-! ## Lemmas: startup -/

theorem main_fatal_of_listen_error (atoi : String → Option Int) (env : Env)
    (dirExists : Bool) (mkdirErr : Option String) (listen : String → Option String)
    (err : String) (hdir : dirExists = true ∨ mkdirErr = none)
    (hkey : getenv env "YOUTUBE_API_KEY" ≠ "")
    (hlisten : listen (":" ++ toString (getEnvAsInt atoi env "PORT" 8080)) = some err) :
    main atoi env dirExists mkdirErr listen = .fatal err := by
  have hguard : (!dirExists && mkdirErr.isSome) = false := by
    rcases hdir with h | h
    · simp [h]
    · simp [h]
  unfold main
  simp only [hguard, if_neg hkey, hlisten]
  rfl

/-! ## Theorems -/

/-- C1: with a non-empty pattern that compiles, `filterVideos` returns exactly
the items whose title the compiled expression matches, in the reverse of their
input order. -/
theorem filterVideos_filter_reverse (compile : Regexp) (s : Server)
    (items : List PlaylistItem) (regex : String → Bool)
    (hne : s.filterPattern ≠ "") (hc : compile s.filterPattern = some regex) :
    filterVideos compile s items
      = .ok ((items.filter (fun item => regex item.title)).reverse) := by
  unfold filterVideos
  rw [if_neg hne, hc]
  simp only [foldl_append_filter, List.nil_append]
  exact reverseLoop_eq_reverse _

/-- C1, on the titles A1, B2, A3 with pattern `^A`: the result is A3, A1. -/
theorem filterVideos_filter_reverse_witness :
    (mkServer "http://h:8080" "^A").filterPattern ≠ "" ∧
    filterVideos exampleRegexp (mkServer "http://h:8080" "^A")
        [mkItem "A1" "v1", mkItem "B2" "v2", mkItem "A3" "v3"]
      = .ok [mkItem "A3" "v3", mkItem "A1" "v1"] :=
  ⟨by decide,
   filterVideos_filter_reverse exampleRegexp (mkServer "http://h:8080" "^A")
     [mkItem "A1" "v1", mkItem "B2" "v2", mkItem "A3" "v3"]
     (fun title => ['A'].isPrefixOf title.data) (by decide) rfl⟩

/-- C2: with the empty pattern `filterVideos` returns the items as fetched, so
the feed built from X1, X2, X3 lists them as X1, X2, X3 and not newest first. -/
theorem filterVideos_empty_pattern_keeps_order :
    filterVideos exampleRegexp (mkServer "http://h:8080" "")
        [mkItem "X1" "v1", mkItem "X2" "v2", mkItem "X3" "v3"]
      = .ok [mkItem "X1" "v1", mkItem "X2" "v2", mkItem "X3" "v3"] ∧
    (serveRSSFeed exampleRegexp 1
        { newService := fun _ => .ok (),
          listPage := fun _ _ => .ok
            { items := [mkItem "X1" "v1", mkItem "X2" "v2", mkItem "X3" "v3"]
              nextPageToken := "" } }
        3600000000000 (mkServer "http://h:8080" "") (fun _ => none) 0 1 "show1").map
      (fun r => match r.1 with
        | .feed doc => doc.channel.items.map (fun e => e.title)
        | _ => [])
      = some ["X1", "X2", "X3"] := by
  constructor <;> rfl

/-- C4: `generateRSSFeed` yields one entry per item, in input order; each
entry has the title and description of its item, the item identifier as GUID,
the enclosure URL `apiUrl/slug/videoId`, enclosure type `audio/mpeg` and
enclosure length `0`. Item vid123 of collection show1 under `http://h:8080`
gets the enclosure URL `http://h:8080/show1/vid123`. -/
theorem generateRSSFeed_entries (s : Server) (items : List PlaylistItem) (slug : String) :
    (generateRSSFeed s items slug).channel.items.length = items.length ∧
    (generateRSSFeed s items slug).channel.items.map (fun e => e.title)
      = items.map (fun item => item.title) ∧
    (generateRSSFeed s items slug).channel.items.map (fun e => e.description)
      = items.map (fun item => item.description) ∧
    (generateRSSFeed s items slug).channel.items.map (fun e => e.guid)
      = items.map (fun item => item.videoId) ∧
    (generateRSSFeed s items slug).channel.items.map (fun e => e.enclosure.url)
      = items.map (fun item => s.apiUrl ++ "/" ++ slug ++ "/" ++ item.videoId) ∧
    (generateRSSFeed s items slug).channel.items.map (fun e => e.enclosure.type)
      = items.map (fun _ => "audio/mpeg") ∧
    (generateRSSFeed s items slug).channel.items.map (fun e => e.enclosure.length)
      = items.map (fun _ => "0") ∧
    (generateRSSFeed (mkServer "http://h:8080" "") [mkItem "Episode" "vid123"]
        "show1").channel.items.map (fun e => e.enclosure.url)
      = ["http://h:8080/show1/vid123"] := by
  rw [generateRSSFeed_items]
  refine ⟨?_, ?_, ?_, ?_, ?_, ?_, ?_, ?_⟩
  · simp
  · simp only [List.map_map]; rfl
  · simp only [List.map_map]; rfl
  · simp only [List.map_map]; rfl
  · simp only [List.map_map]; rfl
  · simp only [List.map_map]; rfl
  · simp only [List.map_map]; rfl
  · decide

/-- C3, as stated, fails: with no entry for the key and a client that cannot
be constructed, `getPlaylistItemsCached` returns the error without ever calling
`fetchPlaylistItems`. -/
theorem getPlaylistItemsCached_absent_without_fetch :
    (fun _ => none : PlaylistCache) "show1" = none ∧
    (getPlaylistItemsCached 1
        { newService := fun _ => .error "no client",
          listPage := fun _ _ => .ok { items := [mkItem "X1" "v1"], nextPageToken := "" } }
        3600000000000 (fun _ => none) 0 1 "show1" "key").map (fun r => (r.result, r.calls))
      = some (.error "no client", [.newService "key"]) ∧
    UpstreamCall.fetchPlaylistItems "show1" ∉ [UpstreamCall.newService "key"] := by
  refine ⟨rfl, rfl, by decide⟩

/-- C3, amended: an entry for the key with `now - fetchedAt < cacheExpiry` is
returned as it is, with no upstream call and the cache unchanged, and that is
the only case without an upstream call. Otherwise the API client is
constructed first: if that fails the error is returned, `fetchPlaylistItems`
is not called and the cache is unchanged; if it succeeds `fetchPlaylistItems`
is called, and its items are returned and stored under the key with the store
time, while its error is returned with the cache unchanged. -/
theorem getPlaylistItemsCached_spec (fuel : Nat) (yt : YouTube) (cacheExpiry : Int)
    (cache : PlaylistCache) (now storeTime : Int) (slug apiKey : String) :
    (∀ entry, cache slug = some entry → now - entry.fetchedAt < cacheExpiry →
      getPlaylistItemsCached fuel yt cacheExpiry cache now storeTime slug apiKey
        = some { result := .ok entry.playlistItems, cache := cache, calls := [] }) ∧
    ((∀ entry, cache slug = some entry → ¬ now - entry.fetchedAt < cacheExpiry) →
      (∀ err, yt.newService apiKey = .error err →
        getPlaylistItemsCached fuel yt cacheExpiry cache now storeTime slug apiKey
          = some { result := .error err, cache := cache, calls := [.newService apiKey] }) ∧
      (yt.newService apiKey = .ok () →
        (∀ items, fetchPlaylistItems fuel yt slug = some (.ok items) →
          getPlaylistItemsCached fuel yt cacheExpiry cache now storeTime slug apiKey
            = some { result := .ok items
                     cache := Function.update cache slug
                       (some { playlistItems := items, fetchedAt := storeTime })
                     calls := [.newService apiKey, .fetchPlaylistItems slug] }) ∧
        (∀ err, fetchPlaylistItems fuel yt slug = some (.error err) →
          getPlaylistItemsCached fuel yt cacheExpiry cache now storeTime slug apiKey
            = some { result := .error err, cache := cache
                     calls := [.newService apiKey, .fetchPlaylistItems slug] }))) ∧
    (∀ r, getPlaylistItemsCached fuel yt cacheExpiry cache now storeTime slug apiKey = some r →
      (r.calls = [] ↔ ∃ entry, cache slug = some entry ∧ now - entry.fetchedAt < cacheExpiry)) := by
  have hrefresh : (∀ entry, cache slug = some entry → ¬ now - entry.fetchedAt < cacheExpiry) →
      getPlaylistItemsCached fuel yt cacheExpiry cache now storeTime slug apiKey
        = refreshPlaylist fuel yt cache storeTime slug apiKey := by
    intro h
    unfold getPlaylistItemsCached
    cases hc : cache slug with
    | none => rfl
    | some entry => simp only [if_neg (h entry hc)]
  refine ⟨?_, ?_, ?_⟩
  · intro entry hc hf
    unfold getPlaylistItemsCached
    simp only [hc, if_pos hf]
  · intro h
    rw [hrefresh h]
    refine ⟨?_, fun he => ⟨?_, ?_⟩⟩
    · intro err he
      unfold refreshPlaylist
      simp only [he]
    · intro items hf
      unfold refreshPlaylist
      simp only [he, hf]
    · intro err hf
      unfold refreshPlaylist
      simp only [he, hf]
  · intro r hr
    by_cases hfresh : ∃ entry, cache slug = some entry ∧ now - entry.fetchedAt < cacheExpiry
    · obtain ⟨entry, hc, hf⟩ := hfresh
      unfold getPlaylistItemsCached at hr
      simp only [hc, if_pos hf, Option.some.injEq] at hr
      subst hr
      exact ⟨fun _ => ⟨entry, hc, hf⟩, fun _ => rfl⟩
    · have h : ∀ entry, cache slug = some entry → ¬ now - entry.fetchedAt < cacheExpiry :=
        fun entry hc hf => hfresh ⟨entry, hc, hf⟩
      rw [hrefresh h] at hr
      refine ⟨fun hcalls => ?_, fun hf => absurd hf hfresh⟩
      exfalso
      unfold refreshPlaylist at hr
      split at hr
      · simp only [Option.some.injEq] at hr
        subst hr
        simp at hcalls
      · split at hr
        · simp at hr
        · simp only [Option.some.injEq] at hr
          subst hr
          simp at hcalls
        · simp only [Option.some.injEq] at hr
          subst hr
          simp at hcalls

/-- C5: for non-empty `k` and `i` without a slash, `/health` goes to the
liveness handler (status 200), `/k.xml` to feed generation for the collection
key `k`, and `/k/i` to audio retrieval for the item identifier `i`. -/
theorem handleRequest_dispatch (k i : String) (hk : k ≠ "") (hks : '/' ∉ k.data)
    (hi : i ≠ "") (his : '/' ∉ i.data) :
    handleRequest "/health" = .health ∧
    (handleRequest "/health").status = some 200 ∧
    handleRequest ("/" ++ k ++ ".xml") = .rssFeed k ∧
    handleRequest ("/" ++ k ++ "/" ++ i) = .audio k i :=
  ⟨by decide, by decide, handleRequest_feed_path k hk hks,
   handleRequest_audio_path k i hk hks hi his⟩

/-- C5 at collection `show1` and item `vid123`. -/
theorem handleRequest_dispatch_witness :
    handleRequest "/health" = .health ∧
    (handleRequest "/health").status = some 200 ∧
    handleRequest "/show1.xml" = .rssFeed "show1" ∧
    handleRequest "/show1/vid123" = .audio "show1" "vid123" :=
  handleRequest_dispatch "show1" "vid123" (by decide) (by decide) (by decide) (by decide)

/-- C6, as stated, fails: `/show1.xml/` is neither `/health`, nor `/k.xml`, nor
`/k/i` for non-empty slash-free `k` and `i`, and it is dispatched to feed
generation for `show1`, not answered with 404. -/
theorem handleRequest_trailing_slash_feed :
    "/show1.xml/" ≠ "/health" ∧
    (∀ k : String, k ≠ "" → '/' ∉ k.data → "/show1.xml/" ≠ "/" ++ k ++ ".xml") ∧
    (∀ k i : String, k ≠ "" → i ≠ "" → '/' ∉ k.data → '/' ∉ i.data →
      "/show1.xml/" ≠ "/" ++ k ++ "/" ++ i) ∧
    handleRequest "/show1.xml/" = .rssFeed "show1" ∧
    handleRequest "/show1.xml/" ≠ .notFound := by
  refine ⟨by decide, ?_, ?_, by decide, by decide⟩
  · intro k _ _ e
    have e1 := congrArg String.data e
    have hd : ("/" ++ k ++ ".xml").data = ('/' :: k.data) ++ xmlSuffix := by
      simp [String.data_append, xmlSuffix]
    rw [hd] at e1
    have e2 := congrArg List.getLast? e1
    rw [List.getLast?_append_of_ne_nil _ (by decide)] at e2
    revert e2
    decide
  · intro k i _ hi _ his e
    have e1 := congrArg String.data e
    have hd : ("/" ++ k ++ "/" ++ i).data = ('/' :: k.data ++ ['/']) ++ i.data := by
      simp [String.data_append]
    rw [hd] at e1
    have e2 := congrArg List.getLast? e1
    apply last_append_no_slash _ _ (data_ne_nil i hi) his
    rw [← e2]
    decide

/-- C6, amended: a path other than `/health` whose form with all leading and
trailing slashes removed is neither a slash-free segment ending in `.xml` nor
two non-empty slash-free segments around one slash is answered with 404; no
feed is generated and no audio is retrieved. -/
theorem handleRequest_notFound (path : String) (hne : path ≠ "/health")
    (hfeed : ∀ k : List Char, '/' ∉ k → trimSlash path.data ≠ k ++ xmlSuffix)
    (haudio : ∀ k i : List Char, k ≠ [] → i ≠ [] → '/' ∉ k → '/' ∉ i →
      trimSlash path.data ≠ k ++ '/' :: i) :
    handleRequest path = .notFound ∧ (handleRequest path).status = some 404 := by
  have h := route_notFound_of_shape path hne hfeed haudio
  rw [h]
  exact ⟨rfl, rfl⟩

/-- C6, amended, at `/abc/`: one segment that does not end in `.xml`. -/
theorem handleRequest_notFound_witness :
    "/abc/" ≠ "/health" ∧ trimSlash "/abc/".data = ['a', 'b', 'c'] ∧
    handleRequest "/abc/" = .notFound ∧ (handleRequest "/abc/").status = some 404 :=
  ⟨by decide, by decide,
   handleRequest_notFound "/abc/" (by decide)
     (fun k _ e => by
       have e1 : trimSlash "/abc/".data = ['a', 'b', 'c'] := by decide
       have e2 := congrArg List.length (e1.symm.trans e)
       simp [xmlSuffix] at e2)
     (fun k i _ _ _ _ e => by
       have e1 : trimSlash "/abc/".data = ['a', 'b', 'c'] := by decide
       have hm : '/' ∈ k ++ '/' :: i := by simp
       rw [← e, e1] at hm
       revert hm
       decide)⟩

/-- C9: when the pages `pages` are served in a chain from the empty page
token and the chain ends, `fetchPlaylistItems` returns for every fuel above
the number of those pages: if the chain ends in a last page (one naming no next
page) the result is the items of all pages concatenated in arrival order; if
it ends in a failed page request the result is that error and no items. -/
theorem fetchPlaylistItems_pages (yt : YouTube) (playlistID : String)
    (pages : List PlaylistItemListResponse) (token : String)
    (h : pageChain (yt.listPage playlistID) "" pages token) :
    (∀ last, yt.listPage playlistID token = .ok last → last.nextPageToken = "" →
      ∀ fuel, pages.length < fuel →
        fetchPlaylistItems fuel yt playlistID
          = some (.ok ((pages ++ [last]).flatMap (fun page => page.items)))) ∧
    (∀ err, yt.listPage playlistID token = .error err →
      ∀ fuel, pages.length < fuel →
        fetchPlaylistItems fuel yt playlistID = some (.error err)) := by
  constructor
  · intro last hl hn fuel hf
    obtain ⟨k, rfl⟩ : ∃ k, fuel = pages.length + (k + 1) := ⟨fuel - pages.length - 1, by omega⟩
    unfold fetchPlaylistItems
    rw [fetchLoop_chain _ pages "" token [] (k + 1) h, fetchLoop]
    simp only [hl, if_pos hn]
    simp [List.flatMap_append]
  · intro err hl fuel hf
    obtain ⟨k, rfl⟩ : ∃ k, fuel = pages.length + (k + 1) := ⟨fuel - pages.length - 1, by omega⟩
    unfold fetchPlaylistItems
    rw [fetchLoop_chain _ pages "" token [] (k + 1) h, fetchLoop]
    simp only [hl]

/-- C9 on the three-page upstream: pages of 50, 50 and 12 items give the 112
items of the playlist, in order and without duplicates. -/
theorem fetchPlaylistItems_pages_witness :
    fetchPlaylistItems 3 threePages "PL" = some (.ok ((List.range' 0 112).map exampleItem)) ∧
    ((List.range' 0 112).map exampleItem).length = 112 :=
  ⟨((fetchPlaylistItems_pages threePages "PL"
      [{ items := (List.range' 0 50).map exampleItem, nextPageToken := "p2" },
       { items := (List.range' 50 50).map exampleItem, nextPageToken := "p3" }]
      "p3" ⟨rfl, by decide, rfl, by decide, rfl⟩).1
      { items := (List.range' 100 12).map exampleItem, nextPageToken := "" } rfl rfl 3
      (by decide)).trans rfl,
   rfl⟩

/-- C7: once a `serveAudio` call for an identifier has served the file, then
after any further sequence of audio requests the file is still at the
canonical path with the same bytes, and a call for that identifier serves
those bytes without running the extraction and leaves the disk as it is. -/
theorem serveAudio_present_is_terminal (join : String → String → String)
    (fs0 : FileSystem) (videoID : String) (run0 : Extraction) (bytes : Content)
    (h : (serveAudio join run0 fs0 videoID).response = .content bytes)
    (later : List (String × Extraction)) (run : Extraction) :
    serveAudioAll join (serveAudio join run0 fs0 videoID).fs later
        (join audioDir (videoID ++ ".mp3")) = some bytes ∧
    serveAudio join run
        (serveAudioAll join (serveAudio join run0 fs0 videoID).fs later) videoID
      = { response := .content bytes
          fs := serveAudioAll join (serveAudio join run0 fs0 videoID).fs later
          extracted := false } := by
  have h1 := serveAudioAll_keeps join _ bytes later _
    (serveAudio_content_present join run0 fs0 videoID bytes h)
  exact ⟨h1, serveAudio_hit join run _ videoID bytes h1⟩

/-- C7 on an empty disk: the first request for `vid123` extracts three bytes;
after requests for another identifier and for `vid123` again, one of them with
a failing extraction, the file is unchanged and served without extraction. -/
theorem serveAudio_present_is_terminal_witness :
    (serveAudio exampleJoin { written := some [1, 2, 3], err := none } emptyDisk
        "vid123").response = .content [1, 2, 3] ∧
    (serveAudio exampleJoin { written := some [9], err := none }
        (serveAudioAll exampleJoin
          (serveAudio exampleJoin { written := some [1, 2, 3], err := none } emptyDisk
            "vid123").fs
          [("other", { written := none, err := some "exit status 1" }),
           ("vid123", { written := some [7], err := none })])
        "vid123").response = .content [1, 2, 3] ∧
    (serveAudio exampleJoin { written := some [9], err := none }
        (serveAudioAll exampleJoin
          (serveAudio exampleJoin { written := some [1, 2, 3], err := none } emptyDisk
            "vid123").fs
          [("other", { written := none, err := some "exit status 1" }),
           ("vid123", { written := some [7], err := none })])
        "vid123").extracted = false :=
  ⟨by decide,
   congrArg AudioServed.response
     (serveAudio_present_is_terminal exampleJoin emptyDisk "vid123"
       { written := some [1, 2, 3], err := none } [1, 2, 3] (by decide)
       [("other", { written := none, err := some "exit status 1" }),
        ("vid123", { written := some [7], err := none })]
       { written := some [9], err := none }).2,
   congrArg AudioServed.extracted
     (serveAudio_present_is_terminal exampleJoin emptyDisk "vid123"
       { written := some [1, 2, 3], err := none } [1, 2, 3] (by decide)
       [("other", { written := none, err := some "exit status 1" }),
        ("vid123", { written := some [7], err := none })]
       { written := some [9], err := none }).2⟩

/-- C8, as stated, fails: an extraction for `vid123` that writes three bytes
and then fails is answered with 500, the three bytes stay at the canonical
path, and the next request for `vid123` serves them as a cache hit without
running the extraction. -/
theorem serveAudio_failed_extraction_leaves_file :
    emptyDisk (exampleJoin audioDir ("vid123" ++ ".mp3")) = none ∧
    (serveAudio exampleJoin { written := some [1, 2, 3], err := some "exit status 1" }
        emptyDisk "vid123").response = .serverError "Error downloading audio" ∧
    (serveAudio exampleJoin { written := some [1, 2, 3], err := some "exit status 1" }
        emptyDisk "vid123").fs (exampleJoin audioDir ("vid123" ++ ".mp3")) = some [1, 2, 3] ∧
    (serveAudio exampleJoin { written := some [4, 5, 6, 7], err := none }
        (serveAudio exampleJoin { written := some [1, 2, 3], err := some "exit status 1" }
          emptyDisk "vid123").fs "vid123").response = .content [1, 2, 3] ∧
    (serveAudio exampleJoin { written := some [4, 5, 6, 7], err := none }
        (serveAudio exampleJoin { written := some [1, 2, 3], err := some "exit status 1" }
          emptyDisk "vid123").fs "vid123").extracted = false := by
  refine ⟨rfl, ?_, ?_, ?_, ?_⟩ <;> decide

/-- C8, amended: when the file is missing and the extraction fails,
`serveAudio` answers 500 and the canonical path holds what the extraction
left there, so no file when it wrote none; every other path keeps its
content, and a later request for an identifier with another canonical path
gets the same response, with or without extraction, as it would have got
without the failure. -/
theorem serveAudio_failure_isolated (join : String → String → String) (fs : FileSystem)
    (videoID : String) (run : Extraction) (err : String)
    (hmiss : fs (join audioDir (videoID ++ ".mp3")) = none) (herr : run.err = some err) :
    (serveAudio join run fs videoID).response = .serverError "Error downloading audio" ∧
    (serveAudio join run fs videoID).fs (join audioDir (videoID ++ ".mp3")) = run.written ∧
    (run.written = none →
      (serveAudio join run fs videoID).fs (join audioDir (videoID ++ ".mp3")) = none) ∧
    (∀ path, path ≠ join audioDir (videoID ++ ".mp3") →
      (serveAudio join run fs videoID).fs path = fs path) ∧
    (∀ other run1, join audioDir (other ++ ".mp3") ≠ join audioDir (videoID ++ ".mp3") →
      (serveAudio join run1 (serveAudio join run fs videoID).fs other).response
          = (serveAudio join run1 fs other).response ∧
      (serveAudio join run1 (serveAudio join run fs videoID).fs other).extracted
          = (serveAudio join run1 fs other).extracted) := by
  have hfs : (serveAudio join run fs videoID).fs (join audioDir (videoID ++ ".mp3"))
      = run.written := by
    unfold serveAudio
    simp only [hmiss, downloadAudio, herr]
    cases hw : run.written with
    | none => simpa using hmiss
    | some b => simp
  refine ⟨?_, hfs, fun hw => hfs.trans hw, ?_, ?_⟩
  · unfold serveAudio
    simp only [hmiss, downloadAudio, herr]
  · intro path hp
    exact serveAudio_frame join run fs videoID path hp
  · intro other run1 hp
    exact serveAudio_local join run1 fs _ other (serveAudio_frame join run fs videoID _ hp)

/-- C8, amended, on an empty disk: a failed extraction for `vid123` that wrote
nothing leaves no file, and `other` is then extracted and served as usual. -/
theorem serveAudio_failure_isolated_witness :
    emptyDisk (exampleJoin audioDir ("vid123" ++ ".mp3")) = none ∧
    (serveAudio exampleJoin { written := none, err := some "exit status 1" } emptyDisk
        "vid123").response = .serverError "Error downloading audio" ∧
    (serveAudio exampleJoin { written := none, err := some "exit status 1" } emptyDisk
        "vid123").fs (exampleJoin audioDir ("vid123" ++ ".mp3")) = none ∧
    (serveAudio exampleJoin { written := some [4, 5], err := none }
        (serveAudio exampleJoin { written := none, err := some "exit status 1" } emptyDisk
          "vid123").fs "other").response = .content [4, 5] :=
  have h := serveAudio_failure_isolated exampleJoin emptyDisk "vid123"
    { written := none, err := some "exit status 1" } "exit status 1" rfl rfl
  ⟨rfl, h.1, h.2.2.1 rfl, (h.2.2.2.2 "other" { written := some [4, 5], err := none }
    (by decide)).1.trans (by decide)⟩

/-- C10, as stated, fails: with the API key set, the filter pattern `(`,
which does not compile, and a listener that starts, `main` ends up serving
with the pattern stored as it is, and the feed request then panics in
`regexp.MustCompile` inside `filterVideos`. -/
theorem main_accepts_invalid_pattern :
    exampleRegexp "(" = none ∧
    main String.toInt? badPatternEnv true none listenValidPort
      = .serving { apiUrl := "http://localhost:8080", youtubeApiKey := "key"
                   filterPattern := "(" } false 8080 3600000000000 ∧
    filterVideos exampleRegexp
        { apiUrl := "http://localhost:8080", youtubeApiKey := "key", filterPattern := "(" }
        [mkItem "A1" "v1"]
      = .error (.regexpMustCompile "(") ∧
    (serveRSSFeed exampleRegexp 1
        { newService := fun _ => .ok (),
          listPage := fun _ _ => .ok { items := [mkItem "A1" "v1"], nextPageToken := "" } }
        3600000000000
        { apiUrl := "http://localhost:8080", youtubeApiKey := "key", filterPattern := "(" }
        (fun _ => none) 0 1 "show1").map (fun r => r.1)
      = some (.panicked (.regexpMustCompile "(")) := by
  refine ⟨rfl, ?_, rfl, rfl⟩
  decide

/-- C10, amended: `main` does not look at the filter pattern. With the audio
directory available, the API key set and a listener that starts on the
configured port, it ends up serving with the pattern taken from the
environment as it is, whether or not it compiles; the pattern is compiled
inside `filterVideos` on every call, which panics exactly when the pattern is
non-empty and does not compile. -/
theorem main_stores_pattern_uncompiled (compile : Regexp) (atoi : String → Option Int)
    (env : Env) (dirExists : Bool) (mkdirErr : Option String)
    (listen : String → Option String)
    (hdir : dirExists = true ∨ mkdirErr = none)
    (hkey : getenv env "YOUTUBE_API_KEY" ≠ "")
    (hlisten : listen (":" ++ toString (getEnvAsInt atoi env "PORT" 8080)) = none) :
    ∃ server convertToMp3 port cacheExpiry,
      main atoi env dirExists mkdirErr listen
        = .serving server convertToMp3 port cacheExpiry ∧
      server.filterPattern = getenv env "FILTER_PATTERN" ∧
      ∀ items : List PlaylistItem,
        (filterVideos compile server items
            = .error (.regexpMustCompile (getenv env "FILTER_PATTERN"))
          ↔ getenv env "FILTER_PATTERN" ≠ "" ∧ compile (getenv env "FILTER_PATTERN") = none) ∧
        (getenv env "FILTER_PATTERN" = "" ∨ compile (getenv env "FILTER_PATTERN") ≠ none →
          ∃ out, filterVideos compile server items = .ok out) := by
  have hguard : (!dirExists && mkdirErr.isSome) = false := by
    rcases hdir with h | h
    · simp [h]
    · simp [h]
  refine ⟨{ apiUrl :=
              if getenv env "SERVER_URL" = "" then
                "http://localhost:" ++ toString (getEnvAsInt atoi env "PORT" 8080)
              else getenv env "SERVER_URL"
            youtubeApiKey := getenv env "YOUTUBE_API_KEY"
            filterPattern := getenv env "FILTER_PATTERN" },
    decide (getenv env "CONVERT_TO_MP3" = "true"),
    getEnvAsInt atoi env "PORT" 8080,
    wrap64 (getEnvAsInt atoi env "CACHE_TTL" cacheTTL * 1000000000), ?_, rfl, ?_⟩
  · unfold main
    simp only [hguard, if_neg hkey, hlisten]
    rfl
  · intro items
    unfold filterVideos
    by_cases hp : getenv env "FILTER_PATTERN" = ""
    · simp [hp]
    · simp only [if_neg hp]
      cases hc : compile (getenv env "FILTER_PATTERN") with
      | none => simp [hp]
      | some regex =>
        simp only [reverseLoop_eq_reverse]
        simp

/-- C10, amended, on the environment with pattern `(` and the default port:
the listener starts, `main` ends up serving and `filterVideos` panics. -/
theorem main_stores_pattern_uncompiled_witness :
    getenv badPatternEnv "YOUTUBE_API_KEY" ≠ "" ∧
    listenValidPort (":" ++ toString (getEnvAsInt String.toInt? badPatternEnv "PORT" 8080))
      = none ∧
    ∃ server convertToMp3 port cacheExpiry,
      main String.toInt? badPatternEnv true none listenValidPort
        = .serving server convertToMp3 port cacheExpiry ∧
      server.filterPattern = "(" ∧
      filterVideos exampleRegexp server [mkItem "A1" "v1"] = .error (.regexpMustCompile "(") :=
  ⟨by decide, by decide,
   match main_stores_pattern_uncompiled exampleRegexp String.toInt? badPatternEnv true none
      listenValidPort (Or.inl rfl) (by decide) (by decide) with
   | ⟨server, convertToMp3, port, cacheExpiry, h1, h2, h3⟩ =>
     ⟨server, convertToMp3, port, cacheExpiry, h1, h2,
      ((h3 [mkItem "A1" "v1"]).1).2 ⟨by decide, rfl⟩⟩⟩

end Yt2pc
